import Mathlib

/-!
Shallow embedding of `src/data_storage/db_manager.py` (repository
Daniel-Ko/local-financial-agent): a SQLite-backed transaction store with three
public operations, `initialize_database`, `execute_query` and `execute_update`.

Modeling notes, traceable to the source:

* The backing engine is SQLite accessed through Python's `sqlite3` module with
  its default (legacy) transaction control.  The semantics embedded here are
  the documented ones for that mode:
  - an implicit `BEGIN` is issued only before a DML statement
    (INSERT / UPDATE / DELETE); DDL statements (CREATE TABLE / INDEX /
    TRIGGER) executed while no transaction is open run in SQLite autocommit
    mode and are durable as soon as `cursor.execute` returns;
  - `conn.commit()` / `conn.rollback()` are no-ops when no transaction is
    open, so they have no effect on autocommitted DDL;
  - `conn.close()` without a commit discards (rolls back) a pending implicit
    DML transaction.
* Each public operation opens its own connection.  `sqlite3.connect` is
  called OUTSIDE the `try` block in all three source functions, so a failure
  to open the connection propagates to the caller; this is modeled by the
  `of` ("open fails") flag, and a propagated Python exception is modeled as
  `Except.error ()`.
* An engine-level failure of a single `cursor.execute` (disk I/O error, etc.)
  is modeled by a fault flag per executed statement (`ft`, or the list `fs`
  inside initialization); a failure of `conn.commit()` inside
  `execute_update` is the `cf` flag.  A failing statement is atomic: it
  leaves the store unchanged.
* The source's executors take arbitrary SQL text; the embedding models the
  statement space as the inductive type `Stmt`: exactly the five DDL
  statements issued by `initialize_database`, plus the DML/SELECT shapes the
  store's contract covers (insert of a transaction record, category update,
  direct attempt to set `updated_at`, delete by id, lookup by `source_id`).
* `CURRENT_TIMESTAMP` is modeled by the `now : Nat` argument of each
  operation; `REAL` amounts pass through the store untouched, so `amount` is
  modeled by an opaque `Int` standing for the stored bit pattern.
* The module-level `settings` (storage location) and `logger` used by
  `get_db_connection` are supplied by configuration code outside `src/`;
  the storage handle is therefore implicit here and logging is not modeled
  (it does not affect any stored value or return value).
* The `UNIQUE` constraint on `source_id` is part of the `CREATE TABLE`
  statement, hence enforced whenever the table exists, independently of the
  separate unique index; SQLite uniqueness ignores NULLs, so only non-null
  `source_id` values conflict.
* The trigger `update_transactions_updated_at` fires AFTER UPDATE on each
  affected row and overwrites `updated_at` with `CURRENT_TIMESTAMP`; SQLite's
  `recursive_triggers` is off by default, so the trigger's own UPDATE does
  not re-fire it.  The trigger only acts when it exists in the schema.
-/

/-- Caller-supplied fields of one transaction record, exactly the columns of
the `transactions` table that are not auto-assigned (`id`, `created_at` and
`updated_at` are assigned by the store). -/
structure TxnInput where
  transaction_time : String
  description : Option String
  amount : Int
  currency : String
  source : String
  source_id : Option String
  category : Option String
  raw_data : Option String
  deriving DecidableEq

/-- One stored row of the `transactions` table. -/
structure Row where
  id : Nat
  transaction_time : String
  description : Option String
  amount : Int
  currency : String
  source : String
  source_id : Option String
  category : Option String
  raw_data : Option String
  created_at : Nat
  updated_at : Nat
  deriving DecidableEq

/-- Durable state of the backing SQLite file: which schema objects exist
(the table, the three indexes, the trigger), the stored rows, and the next
AUTOINCREMENT id. -/
structure DB where
  tableExists : Bool
  idxSid : Bool
  idxTime : Bool
  idxCat : Bool
  trig : Bool
  table : List Row
  nextId : Nat
  deriving DecidableEq

/-- A fresh database file: no schema objects, no rows; AUTOINCREMENT ids
start at 1. -/
def DB.empty : DB :=
  ⟨false, false, false, false, false, [], 1⟩

/-- The statement space reaching the generic executors: the five DDL
statements of `initialize_database` and the DML/SELECT shapes of the store's
contract. -/
inductive Stmt where
  | createTable : Stmt
  | createIdxSid : Stmt
  | createIdxTime : Stmt
  | createIdxCat : Stmt
  | createTrigger : Stmt
  | insertTxn : TxnInput → Stmt
  | updateCategoryById : Nat → Option String → Stmt
  | updateSetUpdatedAtById : Nat → Nat → Stmt
  | deleteById : Nat → Stmt
  | selectBySourceId : String → Stmt
  deriving DecidableEq

/-- DDL statements: autocommitted by SQLite when executed with no open
transaction (Python's legacy mode never opens one for them). -/
def Stmt.isDDL : Stmt → Bool
  | .createTable => true
  | .createIdxSid => true
  | .createIdxTime => true
  | .createIdxCat => true
  | .createTrigger => true
  | _ => false

/-- DML statements: Python's `sqlite3` issues an implicit BEGIN before these,
so they only become durable on `conn.commit()`. -/
def Stmt.isDML : Stmt → Bool
  | .insertTxn _ => true
  | .updateCategoryById _ _ => true
  | .updateSetUpdatedAtById _ _ => true
  | .deleteById _ => true
  | _ => false

/-- Whether some row of `l` already carries the non-null `source_id` `s`. -/
def sidTaken (l : List Row) (s : String) : Bool :=
  l.any (fun r => decide (r.source_id = some s))

/-- Whether inserting a row with the given `source_id` violates the UNIQUE
constraint: only non-null values conflict (SQLite uniqueness ignores NULL). -/
def sidConflict (l : List Row) : Option String → Bool
  | some s => sidTaken l s
  | none => false

/-- Whether `l` already contains two rows sharing a non-null `source_id`
(this is what makes `CREATE UNIQUE INDEX` on an existing table fail). -/
def dupSids : List Row → Bool
  | [] => false
  | r :: rs => sidConflict rs r.source_id || dupSids rs

/-- The row built by a successful INSERT: caller fields verbatim, `id` from
AUTOINCREMENT, both timestamps defaulted to `CURRENT_TIMESTAMP`. -/
def mkRow (i : Nat) (t : TxnInput) (now : Nat) : Row :=
  ⟨i, t.transaction_time, t.description, t.amount, t.currency, t.source,
   t.source_id, t.category, t.raw_data, now, now⟩

/-- Result of one `cursor.execute`: either a `sqlite3.Error` (`err`), or
success with the updated state and the rows a later `fetchall` returns. -/
inductive ExecResult where
  | err : ExecResult
  | ok : DB → List Row → ExecResult
  deriving DecidableEq

/-- Semantics of a single `cursor.execute(st)` at time `now` against state
`db`; `f` injects an engine-level fault.  Each statement is atomic: on error
nothing changed.  All statements except `CREATE TABLE` fail with
`no such table` when the table is absent.  The `IF NOT EXISTS` forms are
no-ops when the object exists.  UPDATE statements fire the `updated_at`
touch trigger on each affected row when the trigger exists. -/
def execStmt (f : Bool) (st : Stmt) (now : Nat) (db : DB) : ExecResult :=
  if f then .err else
  match st with
  | .createTable =>
      if db.tableExists then .ok db [] else .ok { db with tableExists := true } []
  | .createIdxSid =>
      if db.tableExists then
        if db.idxSid then .ok db []
        else if dupSids db.table then .err
        else .ok { db with idxSid := true } []
      else .err
  | .createIdxTime =>
      if db.tableExists then
        if db.idxTime then .ok db [] else .ok { db with idxTime := true } []
      else .err
  | .createIdxCat =>
      if db.tableExists then
        if db.idxCat then .ok db [] else .ok { db with idxCat := true } []
      else .err
  | .createTrigger =>
      if db.tableExists then
        if db.trig then .ok db [] else .ok { db with trig := true } []
      else .err
  | .insertTxn t =>
      if db.tableExists then
        if sidConflict db.table t.source_id then .err
        else .ok { db with table := db.table ++ [mkRow db.nextId t now],
                           nextId := db.nextId + 1 } []
      else .err
  | .updateCategoryById i c =>
      if db.tableExists then
        .ok { db with table := db.table.map (fun r =>
          if r.id = i then
            { r with category := c,
                     updated_at := if db.trig then now else r.updated_at }
          else r) } []
      else .err
  | .updateSetUpdatedAtById i v =>
      if db.tableExists then
        .ok { db with table := db.table.map (fun r =>
          if r.id = i then
            { r with updated_at := if db.trig then now else v }
          else r) } []
      else .err
  | .deleteById i =>
      if db.tableExists then
        .ok { db with table := db.table.filter (fun r => decide (r.id ≠ i)) } []
      else .err
  | .selectBySourceId s =>
      if db.tableExists then
        .ok db (db.table.filter (fun r => decide (r.source_id = some s)))
      else .err

/-- Embedding of `execute_query(query, params)`.  `of` = the
`sqlite3.connect` call (outside the `try`) raises; `ft` = the single
`cursor.execute` raises.  An execute failure is caught and `[]` returned.
The function never commits, so a DML effect is discarded when the `finally`
block closes the connection; a successful DDL statement was autocommitted at
execute time and therefore persists.  The second component is the durable
state after the call. -/
def execute_query (of ft : Bool) (st : Stmt) (now : Nat) (db : DB) :
    Except Unit (List Row) × DB :=
  if of then (Except.error (), db)
  else
    match execStmt ft st now db with
    | .err => (Except.ok [], db)
    | .ok db' rows =>
        if st.isDDL then (Except.ok rows, db') else (Except.ok rows, db)

/-- Embedding of `execute_update(query, params)`.  `of` = connection open
raises (propagates: the open is outside the `try`); `ft` = `cursor.execute`
raises (caught: rollback, return `False`); `cf` = `conn.commit()` raises
(caught: rollback, return `False`).  A successful DDL statement is
autocommitted at execute time, and `commit()` is a no-op with no open
transaction, so `cf` only matters for DML.  The second component is the
durable state after the call. -/
def execute_update (of ft cf : Bool) (st : Stmt) (now : Nat) (db : DB) :
    Except Unit Bool × DB :=
  if of then (Except.error (), db)
  else
    match execStmt ft st now db with
    | .err => (Except.ok false, db)
    | .ok db' _ =>
        if st.isDDL then (Except.ok true, db')
        else if st.isDML && cf then (Except.ok false, db)
        else (Except.ok true, db')

/-- The five DDL statements of `initialize_database`, in source order. -/
def ddlSteps : List Stmt :=
  [.createTable, .createIdxSid, .createIdxTime, .createIdxCat, .createTrigger]

/-- The `try` body of `initialize_database`: run the DDL statements in order
(`fs` lists which `cursor.execute` calls fault); the first `sqlite3.Error`
is caught, after which `conn.rollback()` runs — a no-op, because every
completed DDL statement was autocommitted and no transaction is open.  DDL
does not read `CURRENT_TIMESTAMP`, so the time argument of `execStmt` is
irrelevant here and fixed to 0. -/
def runInit : List Bool → List Stmt → DB → DB
  | _, [], db => db
  | fs, s :: ss, db =>
    match execStmt (fs.headD false) s 0 db with
    | .err => db
    | .ok db' _ => runInit fs.tail ss db'

/-- Embedding of `initialize_database()`.  `of` = the connection open
(outside the `try`) raises and propagates; otherwise every failure inside
the body is caught and the call returns normally.  The final `conn.commit()`
is a no-op (no transaction is ever open: the body is all DDL). -/
def initialize_database (of : Bool) (fs : List Bool) (db : DB) :
    Except Unit Unit × DB :=
  if of then (Except.error (), db)
  else (Except.ok (), runInit fs ddlSteps db)

/-- One public API call together with its fault injection: which of the
connection open / statement execution / commit steps fail. -/
inductive Op where
  | initOp : Bool → List Bool → Op
  | updateOp : Bool → Bool → Bool → Stmt → Op
  | queryOp : Bool → Bool → Stmt → Op
  deriving DecidableEq

/-- Durable state left behind by one public API call issued at time `now`. -/
def applyOp : Op → Nat → DB → DB
  | .initOp of fs, _, db => (initialize_database of fs db).2
  | .updateOp of ft cf st, now, db => (execute_update of ft cf st now db).2
  | .queryOp of ft st, now, db => (execute_query of ft st now db).2

/-- Durable states reachable from a fresh database file through the public
API, with calls issued at strictly increasing times; `Reach db t` also says
every call so far happened at a time `< t`. -/
inductive Reach : DB → Nat → Prop where
  | empty : ∀ t : Nat, Reach DB.empty t
  | step : ∀ (db : DB) (t : Nat) (o : Op) (t' : Nat) (db' : DB),
      Reach db t → t < t' → applyOp o t db = db' → Reach db' t'

/-- Number of rows of `l` carrying the non-null `source_id` `s`. -/
def countSid (l : List Row) (s : String) : Nat :=
  (l.filter (fun r => decide (r.source_id = some s))).length

/-- Invariant of every reachable state (at bound `t`): rows exist only if
the table does; ids are below the AUTOINCREMENT counter and pairwise
distinct; creation stamps are in the past; non-null source ids are unique. -/
structure StoreInv (db : DB) (t : Nat) : Prop where
  noTable : db.tableExists = false → db.table = []
  idsLt : ∀ r ∈ db.table, r.id < db.nextId
  idsNodup : (db.table.map Row.id).Nodup
  createdLt : ∀ r ∈ db.table, r.created_at < t
  sids : ∀ s : String, countSid db.table s ≤ 1

/-- Sample record with non-null `source_id` for concrete witnesses. -/
def tIn1 : TxnInput :=
  ⟨"2024-01-02T03:04:05Z", some "coffee", -45, "NZD", "wise", some "w1",
   some "Food", some "raw1"⟩

/-- A second record re-ingested with the same `source_id` as `tIn1`. -/
def tIn2 : TxnInput :=
  ⟨"2024-02-02T03:04:05Z", some "tea", -30, "NZD", "wise", some "w1",
   none, none⟩

/-- A record with null `source_id`. -/
def tIn3 : TxnInput :=
  ⟨"2024-03-02T03:04:05Z", none, 100, "USD", "ocr", none, none, none⟩

/-- A fault-free initialization call. -/
def opInit : Op := .initOp false []

/-- A fault-free insert of `tIn1` through the update executor. -/
def opIns1 : Op := .updateOp false false false (.insertTxn tIn1)

/-- State after initializing a fresh database at time 0. -/
def dbInit : DB := applyOp opInit 0 DB.empty

/-- State after additionally inserting `tIn1` at time 1. -/
def dbOne : DB := applyOp opIns1 1 dbInit

/-- Durable state after `initialize_database` is interrupted by a fault in
its fifth `cursor.execute` (the trigger creation), starting from a fresh
file. -/
def dbPartialInit : DB :=
  (initialize_database false [false, false, false, false, true] DB.empty).2

/-- Whether the complete schema (table, three indexes, trigger) exists. -/
def fullSchema (db : DB) : Bool :=
  db.tableExists && db.idxSid && db.idxTime && db.idxCat && db.trig

/-- N successive fault-free calls of `initialize_database`, threading the
durable state (the call reads no timestamps, so times are irrelevant). -/
def initIter : Nat → DB → DB
  | 0, db => db
  | n + 1, db => initIter n (initialize_database false [] db).2

/-- Whether the operation is an update statement addressing row id `i` that
ran to a committed completion: connection opened, neither the execute nor
the commit faulted, and the statement was one of the UPDATE shapes with a
WHERE clause naming `i`. -/
def OpUpdates : Op → Nat → Bool
  | .updateOp false false false (.updateCategoryById j _), i => j == i
  | .updateOp false false false (.updateSetUpdatedAtById j _), i => j == i
  | _, _ => false

/-- Projection of a stored row back to its caller-supplied fields (id and
the two timestamp auto-fields dropped). -/
def rowFields (r : Row) : TxnInput :=
  ⟨r.transaction_time, r.description, r.amount, r.currency, r.source,
   r.source_id, r.category, r.raw_data⟩

/-- State reached by a successful INSERT of `tIn` at time `now`. -/
def insertedDB (db : DB) (tIn : TxnInput) (now : Nat) : DB :=
  { db with table := db.table ++ [mkRow db.nextId tIn now],
            nextId := db.nextId + 1 }

/-- Outcome of a sequence of fault-free inserts through the update
executor, issued at successive times, threading the durable state; the
first component collects the per-call results. -/
def insertAll : List TxnInput → Nat → DB → List (Except Unit Bool) × DB
  | [], _, db => ([], db)
  | tIn :: ts, now, db =>
      let p := execute_update false false false (.insertTxn tIn) now db
      let q := insertAll ts (now + 1) p.2
      (p.1 :: q.1, q.2)

theorem countSid_append (l₁ l₂ : List Row) (s : String) :
    countSid (l₁ ++ l₂) s = countSid l₁ s + countSid l₂ s := by
  simp [countSid, List.filter_append]

theorem countSid_nil (s : String) : countSid [] s = 0 := rfl

theorem countSid_singleton (r : Row) (s : String) :
    countSid [r] s = if r.source_id = some s then 1 else 0 := by
  by_cases h : r.source_id = some s <;> simp [countSid, List.filter, h]

theorem sidTaken_eq_false_iff (l : List Row) (s : String) :
    sidTaken l s = false ↔ ∀ r ∈ l, r.source_id ≠ some s := by
  simp [sidTaken, List.any_eq_false]

theorem countSid_eq_zero_of_not_taken {l : List Row} {s : String}
    (h : sidTaken l s = false) : countSid l s = 0 := by
  rw [countSid, List.length_eq_zero, List.filter_eq_nil_iff]
  intro r hr
  simpa using (sidTaken_eq_false_iff l s).1 h r hr

theorem countSid_pos_of_mem {l : List Row} {r : Row} {s : String}
    (hr : r ∈ l) (hs : r.source_id = some s) : 1 ≤ countSid l s := by
  have : r ∈ l.filter (fun r => decide (r.source_id = some s)) :=
    List.mem_filter.2 ⟨hr, by simp [hs]⟩
  have hne : l.filter (fun r => decide (r.source_id = some s)) ≠ [] := by
    intro hnil
    rw [hnil] at this
    exact absurd this (List.not_mem_nil r)
  rw [countSid]
  exact Nat.one_le_iff_ne_zero.2 (fun h0 => hne (List.length_eq_zero.1 h0))

theorem countSid_map {g : Row → Row} (hg : ∀ r, (g r).source_id = r.source_id)
    (l : List Row) (s : String) : countSid (l.map g) s = countSid l s := by
  induction l with
  | nil => rfl
  | cons a l ih =>
      simp only [List.map_cons, countSid, List.filter] at ih ⊢
      rw [hg a]
      cases hd : decide (a.source_id = some s) <;> simp [ih]

theorem countSid_filter_le (q : Row → Bool) (l : List Row) (s : String) :
    countSid (l.filter q) s ≤ countSid l s := by
  rw [countSid, countSid]
  exact List.Sublist.length_le
    (List.Sublist.filter (fun r => decide (r.source_id = some s)) (List.filter_sublist l))

theorem mem_eq_of_id {l : List Row} (hn : (l.map Row.id).Nodup)
    {r r' : Row} (hr : r ∈ l) (hr' : r' ∈ l) (hid : r'.id = r.id) : r' = r := by
  induction l with
  | nil => exact absurd hr (List.not_mem_nil r)
  | cons a l ih =>
      simp only [List.map_cons, List.nodup_cons] at hn
      rcases List.mem_cons.1 hr with rfl | hr₁
      · rcases List.mem_cons.1 hr' with rfl | hr₂
        · rfl
        · exact absurd (hid ▸ List.mem_map_of_mem Row.id hr₂) hn.1
      · rcases List.mem_cons.1 hr' with rfl | hr₂
        · exact absurd (hid ▸ List.mem_map_of_mem Row.id hr₁) hn.1
        · exact ih hn.2 hr₁ hr₂

theorem exec_ddl_state {f : Bool} {st : Stmt} {now : Nat} {db db' : DB}
    {rows : List Row} (hd : st.isDDL = true)
    (h : execStmt f st now db = .ok db' rows) :
    db'.table = db.table ∧ db'.nextId = db.nextId ∧
      (db'.tableExists = false → db.tableExists = false) := by
  cases f
  case true => simp [execStmt] at h
  case false =>
    cases st <;> simp [Stmt.isDDL] at hd <;>
      simp only [execStmt, Bool.false_eq_true, if_false] at h <;>
      split_ifs at h <;>
      simp_all [ExecResult.ok.injEq] <;>
      obtain ⟨rfl, rfl⟩ := h <;>
      simp

theorem inv_empty (t : Nat) : StoreInv DB.empty t := by
  refine ⟨?_, ?_, ?_, ?_, ?_⟩ <;> simp [DB.empty, countSid]

theorem inv_mono {db : DB} {t t' : Nat} (hI : StoreInv db t) (h : t ≤ t') :
    StoreInv db t' :=
  ⟨hI.noTable, hI.idsLt, hI.idsNodup,
   fun r hr => Nat.lt_of_lt_of_le (hI.createdLt r hr) h, hI.sids⟩

theorem inv_map {db : DB} {t t' : Nat} (hI : StoreInv db t) (ht : t < t')
    {g : Row → Row} (hid : ∀ r, (g r).id = r.id)
    (hsid : ∀ r, (g r).source_id = r.source_id)
    (hcr : ∀ r, (g r).created_at = r.created_at)
    (htab : db.tableExists = true) :
    StoreInv { db with table := db.table.map g } t' := by
  refine ⟨?_, ?_, ?_, ?_, ?_⟩
  · intro hf
    simp only at hf
    rw [htab] at hf
    cases hf
  · intro r hr
    simp only [List.mem_map] at hr
    obtain ⟨r0, hr0, rfl⟩ := hr
    simpa [hid r0] using hI.idsLt r0 hr0
  · have hm : (db.table.map g).map Row.id = db.table.map Row.id := by
      rw [List.map_map]
      exact List.map_congr_left (fun a _ => hid a)
    simpa [hm] using hI.idsNodup
  · intro r hr
    simp only [List.mem_map] at hr
    obtain ⟨r0, hr0, rfl⟩ := hr
    rw [hcr r0]
    exact Nat.lt_trans (hI.createdLt r0 hr0) ht
  · intro s
    simp only
    rw [countSid_map hsid]
    exact hI.sids s

theorem inv_exec {db db' : DB} {t t' : Nat} {f : Bool} {st : Stmt}
    {rows : List Row} (hI : StoreInv db t)
    (h : execStmt f st t db = .ok db' rows) (ht : t < t') :
    StoreInv db' t' := by
  cases f
  case true => simp [execStmt] at h
  case false =>
    by_cases hd : st.isDDL = true
    · obtain ⟨h1, h2, h3⟩ := exec_ddl_state hd h
      refine ⟨?_, ?_, ?_, ?_, ?_⟩
      · intro hf
        rw [h1]
        exact hI.noTable (h3 hf)
      · intro r hr
        rw [h2]
        exact hI.idsLt r (h1 ▸ hr)
      · rw [h1]
        exact hI.idsNodup
      · intro r hr
        exact Nat.lt_trans (hI.createdLt r (h1 ▸ hr)) ht
      · intro s
        rw [h1]
        exact hI.sids s
    · cases st <;> simp [Stmt.isDDL] at hd
      -- goals in constructor order: insertTxn, updateCategoryById,
      -- updateSetUpdatedAtById, deleteById, selectBySourceId
      · rename_i tIn
        simp only [execStmt, Bool.false_eq_true, if_false] at h
        split_ifs at h with htab hconf
        cases h
        refine ⟨?_, ?_, ?_, ?_, ?_⟩
        · intro hf
          simp only at hf
          rw [htab] at hf
          cases hf
        · intro r hr
          simp only [List.mem_append, List.mem_singleton] at hr
          rcases hr with hr | rfl
          · exact Nat.lt_trans (hI.idsLt r hr) (Nat.lt_succ_self _)
          · exact Nat.lt_succ_self _
        · simp only [List.map_append, List.map_cons, List.map_nil]
          rw [List.nodup_append]
          refine ⟨hI.idsNodup, List.nodup_singleton _, ?_⟩
          intro a ha hb
          simp only [List.mem_singleton] at hb
          subst hb
          simp only [List.mem_map] at ha
          obtain ⟨r0, hr0, hr0id⟩ := ha
          have := hI.idsLt r0 hr0
          simp [mkRow] at hr0id
          omega
        · intro r hr
          simp only [List.mem_append, List.mem_singleton] at hr
          rcases hr with hr | rfl
          · exact Nat.lt_trans (hI.createdLt r hr) ht
          · exact ht
        · intro s
          simp only
          rw [countSid_append, countSid_singleton]
          rcases hsd : tIn.source_id with _ | s0
          · have hms : (mkRow db.nextId tIn t).source_id = none := by
              simp [mkRow, hsd]
            rw [hms]
            simpa using hI.sids s
          · have hms : (mkRow db.nextId tIn t).source_id = some s0 := by
              simp [mkRow, hsd]
            rw [hms]
            by_cases hss : s0 = s
            · subst hss
              have hz : countSid db.table s0 = 0 := by
                apply countSid_eq_zero_of_not_taken
                rw [hsd] at hconf
                simpa [sidConflict] using hconf
              simp [hz]
            · have hne : ¬ (some s0 = some s) := by simp [hss]
              rw [if_neg hne]
              simpa using hI.sids s
      · rename_i i c
        simp only [execStmt, Bool.false_eq_true, if_false] at h
        split_ifs at h with htab htr <;> cases h <;>
          exact inv_map hI ht
            (fun r => by by_cases hri : r.id = i <;> simp [hri])
            (fun r => by by_cases hri : r.id = i <;> simp [hri])
            (fun r => by by_cases hri : r.id = i <;> simp [hri]) htab
      · rename_i i v
        simp only [execStmt, Bool.false_eq_true, if_false] at h
        split_ifs at h with htab htr <;> cases h <;>
          exact inv_map hI ht
            (fun r => by by_cases hri : r.id = i <;> simp [hri])
            (fun r => by by_cases hri : r.id = i <;> simp [hri])
            (fun r => by by_cases hri : r.id = i <;> simp [hri]) htab
      · rename_i i
        simp only [execStmt, Bool.false_eq_true, if_false] at h
        split_ifs at h with htab
        cases h
        refine ⟨?_, ?_, ?_, ?_, ?_⟩
        · intro hf
          simp only at hf
          rw [htab] at hf
          cases hf
        · intro r hr
          exact hI.idsLt r (List.mem_of_mem_filter hr)
        · simp only
          exact List.Nodup.sublist
            (List.Sublist.map Row.id (List.filter_sublist db.table)) hI.idsNodup
        · intro r hr
          exact Nat.lt_trans (hI.createdLt r (List.mem_of_mem_filter hr)) ht
        · intro s
          exact Nat.le_trans (countSid_filter_le _ db.table s) (hI.sids s)
      · rename_i s0
        simp only [execStmt, Bool.false_eq_true, if_false] at h
        split_ifs at h with htab
        cases h
        exact inv_mono hI (Nat.le_of_lt ht)

theorem runInit_state (fs : List Bool) (ss : List Stmt) (db : DB)
    (hss : ∀ s ∈ ss, s.isDDL = true) :
    (runInit fs ss db).table = db.table ∧
      (runInit fs ss db).nextId = db.nextId ∧
      ((runInit fs ss db).tableExists = false → db.tableExists = false) := by
  induction ss generalizing fs db with
  | nil => exact ⟨rfl, rfl, fun h => h⟩
  | cons s ss ih =>
      simp only [runInit]
      rcases hre : execStmt (fs.headD false) s 0 db with _ | ⟨db1, rows⟩
      · exact ⟨rfl, rfl, fun h => h⟩
      · obtain ⟨e1, e2, e3⟩ := exec_ddl_state (hss s (List.mem_cons_self s ss)) hre
        obtain ⟨i1, i2, i3⟩ :=
          ih fs.tail db1 (fun x hx => hss x (List.mem_cons_of_mem s hx))
        exact ⟨i1.trans e1, i2.trans e2, fun h => e3 (i3 h)⟩

theorem inv_runInit {db : DB} {t : Nat} (hI : StoreInv db t) (fs : List Bool) :
    StoreInv (runInit fs ddlSteps db) t := by
  obtain ⟨h1, h2, h3⟩ := runInit_state fs ddlSteps db (by decide)
  refine ⟨?_, ?_, ?_, ?_, ?_⟩
  · intro hf
    rw [h1]
    exact hI.noTable (h3 hf)
  · intro r hr
    rw [h2]
    exact hI.idsLt r (h1 ▸ hr)
  · rw [h1]
    exact hI.idsNodup
  · intro r hr
    exact hI.createdLt r (h1 ▸ hr)
  · intro s
    rw [h1]
    exact hI.sids s

theorem inv_applyOp {db : DB} {t t' : Nat} (hI : StoreInv db t) (ht : t < t')
    (o : Op) : StoreInv (applyOp o t db) t' := by
  cases o with
  | initOp of fs =>
      simp only [applyOp, initialize_database]
      split_ifs with hof
      · exact inv_mono hI (Nat.le_of_lt ht)
      · exact inv_mono (inv_runInit hI fs) (Nat.le_of_lt ht)
  | updateOp of ft cf st =>
      rcases hre : execStmt ft st t db with _ | ⟨db1, rows⟩ <;>
        simp only [applyOp, execute_update, hre] <;>
        split_ifs <;>
        first
          | exact inv_mono hI (Nat.le_of_lt ht)
          | exact inv_exec hI hre ht
  | queryOp of ft st =>
      rcases hre : execStmt ft st t db with _ | ⟨db1, rows⟩ <;>
        simp only [applyOp, execute_query, hre] <;>
        split_ifs <;>
        first
          | exact inv_mono hI (Nat.le_of_lt ht)
          | exact inv_exec hI hre ht

theorem reach_inv {db : DB} {t : Nat} (h : Reach db t) : StoreInv db t := by
  induction h with
  | empty t => exact inv_empty t
  | step db0 t0 o t1 db1 h0 hlt heq ih =>
      subst heq
      exact inv_applyOp ih hlt o

theorem reach_dbInit : Reach dbInit 1 :=
  Reach.step DB.empty 0 opInit 1 dbInit (Reach.empty 0) (by decide) rfl

theorem reach_dbOne : Reach dbOne 2 :=
  Reach.step dbInit 1 opIns1 2 dbOne reach_dbInit (by decide) rfl

/-- C1: in every reachable store state, re-inserting a record whose
`source_id` equals the non-null `source_id` of an existing row makes
`execute_update` return `false`, and afterwards the table holds exactly one
row with that `source_id` (deduplication invariant across all operation
sequences; the conclusion holds whether or not the insert's own
`cursor.execute` additionally faults). -/
theorem c1_source_id_dedup (db : DB) (t : Nat) (r : Row) (s : String)
    (tIn : TxnInput) (ft cf : Bool) (now : Nat)
    (hre : Reach db t) (hr : r ∈ db.table) (hs : r.source_id = some s)
    (hts : tIn.source_id = some s) :
    (execute_update false ft cf (.insertTxn tIn) now db).1 = Except.ok false ∧
      countSid (execute_update false ft cf (.insertTxn tIn) now db).2.table s
        = 1 := by
  have hInv := reach_inv hre
  have htab : db.tableExists = true := by
    by_contra hf
    have hni : db.table = [] :=
      hInv.noTable (by revert hf; cases db.tableExists <;> simp)
    rw [hni] at hr
    exact absurd hr (List.not_mem_nil r)
  have hcount : countSid db.table s = 1 :=
    Nat.le_antisymm (hInv.sids s) (countSid_pos_of_mem hr hs)
  cases ft
  case false =>
    have hconf : sidConflict db.table tIn.source_id = true := by
      rw [hts]
      simp only [sidConflict, sidTaken]
      exact List.any_eq_true.2 ⟨r, hr, by simp [hs]⟩
    have hexec : execStmt false (.insertTxn tIn) now db = .err := by
      simp [execStmt, htab, hconf]
    exact ⟨by simp [execute_update, hexec],
           by simp [execute_update, hexec, hcount]⟩
  case true =>
    exact ⟨by simp [execute_update, execStmt],
           by simp [execute_update, execStmt, hcount]⟩

theorem c1_source_id_dedup_witness :
    (execute_update false false false (.insertTxn tIn2) 5 dbOne).1
        = Except.ok false ∧
      countSid (execute_update false false false (.insertTxn tIn2) 5
        dbOne).2.table "w1" = 1 :=
  c1_source_id_dedup dbOne 2 (mkRow 1 tIn1 1) "w1" tIn2 false false 5
    reach_dbOne (by decide) (by decide) (by decide)

/-- C2: whenever `execute_update` reports failure (`false`), the durable
state after the call equals the state before it — the caught execute error
or commit error triggers a rollback of the pending DML transaction, and a
failing statement had no durable effect (per-call atomicity). -/
theorem c2_update_failure_atomic (of ft cf : Bool) (st : Stmt) (now : Nat)
    (db : DB)
    (h : (execute_update of ft cf st now db).1 = Except.ok false) :
    (execute_update of ft cf st now db).2 = db := by
  rcases hre : execStmt ft st now db with _ | ⟨db1, rows⟩ <;>
    simp only [execute_update, hre] at h ⊢ <;>
    split_ifs at h ⊢ <;>
    simp_all

theorem c2_update_failure_atomic_witness :
    (execute_update false true false (.deleteById 0) 0 DB.empty).2
      = DB.empty :=
  c2_update_failure_atomic false true false (.deleteById 0) 0 DB.empty rfl

/-- C3 counterexample: a connectivity/open failure is NOT caught inside
`execute_query` — `sqlite3.connect` sits outside the `try` block, so the
exception propagates to the caller instead of yielding an empty sequence.
This refutes the claim that no error value ever propagates. -/
theorem c3_counterexample :
    (execute_query true false (.selectBySourceId "w1") 0 DB.empty).1
      = Except.error () := rfl

/-- C3 amended: every failure raised by the statement execution itself is
caught inside the operation (an execute fault makes `execute_query` return
the empty sequence, and neither `execute_query`, `execute_update` nor
`initialize_database` can propagate an error once the connection has been
opened); only a connection-open failure — raised outside the `try` — still
propagates. -/
theorem c3_amended_errors_caught_after_open (ft cf : Bool) (st : Stmt)
    (now : Nat) (db : DB) (fs : List Bool) :
    (execute_query false ft st now db).1 ≠ Except.error () ∧
      (execute_query false true st now db).1 = Except.ok [] ∧
      (execute_update false ft cf st now db).1 ≠ Except.error () ∧
      (initialize_database false fs db).1 = Except.ok () := by
  refine ⟨?_, ?_, ?_, rfl⟩
  · rcases hre : execStmt ft st now db with _ | ⟨db1, rows⟩ <;>
      simp only [execute_query, hre] <;>
      split_ifs <;>
      simp_all
  · simp [execute_query, execStmt]
  · rcases hre : execStmt ft st now db with _ | ⟨db1, rows⟩ <;>
      simp only [execute_update, hre] <;>
      split_ifs <;>
      simp_all

theorem exec_tableExists {f : Bool} {st : Stmt} {now : Nat} {db db' : DB}
    {rows : List Row} (h : execStmt f st now db = .ok db' rows)
    (ht : db.tableExists = true) : db'.tableExists = true := by
  cases f
  case true => simp [execStmt] at h
  case false =>
    cases st <;>
      simp only [execStmt, Bool.false_eq_true, if_false] at h <;>
      split_ifs at h <;>
      cases h <;>
      simp [ht]

theorem runInit_tableExists (fs : List Bool) (ss : List Stmt) (db : DB)
    (h : db.tableExists = true) : (runInit fs ss db).tableExists = true := by
  induction ss generalizing fs db with
  | nil => exact h
  | cons s ss ih =>
      simp only [runInit]
      rcases hre : execStmt (fs.headD false) s 0 db with _ | ⟨db1, rows⟩
      · exact h
      · exact ih fs.tail db1 (exec_tableExists hre h)

/-- C4 counterexample: when the trigger-creation step of
`initialize_database` fails on a fresh file, the resulting state has the
table and all three indexes but no trigger — neither all schema objects
exist nor have this invocation's changes been rolled back to nothing, so
initialization is not all-or-nothing.  (Each completed `CREATE` was
autocommitted: Python's `sqlite3` opens no transaction for DDL, so the
`conn.rollback()` in the `except` branch undoes nothing.) -/
theorem c4_counterexample :
    ¬ (fullSchema dbPartialInit = true ∨ dbPartialInit = DB.empty) := by
  decide

/-- C4 amended: a failure inside the body of `initialize_database` is
caught and does not propagate (the call still returns normally), and an
already-existing table is never lost; but the rollback is ineffective:
schema objects created by steps before the failing one persist (concretely,
a fault at the trigger step leaves table and indexes in place with no
trigger), and only a connection-open failure propagates, leaving the state
untouched. -/
theorem c4_amended_partial_init_persists (fs : List Bool) (db : DB) :
    (initialize_database false fs db).1 = Except.ok () ∧
      (db.tableExists = true →
        (initialize_database false fs db).2.tableExists = true) ∧
      initialize_database true fs db = (Except.error (), db) ∧
      dbPartialInit.tableExists = true ∧ dbPartialInit.idxSid = true ∧
      dbPartialInit.idxTime = true ∧ dbPartialInit.idxCat = true ∧
      dbPartialInit.trig = false := by
  refine ⟨rfl, ?_, rfl, by decide, by decide, by decide, by decide, by decide⟩
  intro h
  simp only [initialize_database, Bool.false_eq_true, if_false]
  exact runInit_tableExists fs ddlSteps db h

theorem c4_amended_partial_init_persists_witness :
    (initialize_database false [] dbPartialInit).2.tableExists = true :=
  (c4_amended_partial_init_persists [] dbPartialInit).2.1 rfl

theorem init_idem (db : DB) :
    (initialize_database false [] (initialize_database false [] db).2).2 =
      (initialize_database false [] db).2 := by
  by_cases h1 : db.tableExists <;>
    by_cases h2 : db.idxSid <;>
    by_cases h3 : dupSids db.table <;>
    by_cases h4 : db.idxTime <;>
    by_cases h5 : db.idxCat <;>
    by_cases h6 : db.trig <;>
    simp [initialize_database, ddlSteps, runInit, execStmt,
      h1, h2, h3, h4, h5, h6]

theorem initIter_fix (m : Nat) (db : DB) :
    initIter m (initialize_database false [] db).2 =
      (initialize_database false [] db).2 := by
  induction m generalizing db with
  | zero => rfl
  | succ m ih =>
      simp only [initIter]
      rw [init_idem]
      exact ih db

/-- C5: `initialize_database` is idempotent — for every `n ≥ 1`, invoking
it `n` times from any state yields exactly the state of invoking it once
(same schema objects, no duplicated structures, rows untouched), and each
call returns without error. -/
theorem c5_init_idempotent (db : DB) (n : Nat) (h : 1 ≤ n) :
    initIter n db = initIter 1 db ∧
      (initialize_database false [] db).1 = Except.ok () := by
  refine ⟨?_, rfl⟩
  cases n with
  | zero => cases h
  | succ m =>
      show initIter m (initialize_database false [] db).2 = initIter 1 db
      rw [initIter_fix]
      rfl

theorem c5_init_idempotent_witness :
    initIter 3 DB.empty = initIter 1 DB.empty ∧
      (initialize_database false [] DB.empty).1 = Except.ok () :=
  c5_init_idempotent DB.empty 3 (by decide)

theorem c6_unchanged {db : DB} {t : Nat} (hInv : StoreInv db t) {r r' : Row}
    (hr : r ∈ db.table) (hid : r'.id = r.id) {l : List Row}
    (htbl : l = db.table) (hr' : r' ∈ l) (b : Bool) (hb : b = false) :
    r'.created_at = r.created_at ∧ (r'.updated_at ≠ r.updated_at ↔ b = true) := by
  subst htbl
  have h0 := mem_eq_of_id hInv.idsNodup hr hr' hid
  subst h0
  simp [hb]

/-- C6: for every row of a reachable state whose schema carries the touch
trigger, an operation issued at a fresh time changes the row's `updated_at`
if and only if the operation is a committed UPDATE statement addressing that
row — the trigger refreshes `updated_at` on every update, a direct attempt
to set `updated_at` to a chosen value is overwritten by the trigger with
`CURRENT_TIMESTAMP` — and `created_at` never changes after the row is
inserted. -/
theorem c6_updated_at_touch (db : DB) (t : Nat) (o : Op) (r r' : Row)
    (hre : Reach db t) (htr : db.trig = true) (hr : r ∈ db.table)
    (hu : r.updated_at ≠ t) (hr' : r' ∈ (applyOp o t db).table)
    (hid : r'.id = r.id) :
    r'.created_at = r.created_at ∧
      (r'.updated_at ≠ r.updated_at ↔ OpUpdates o r.id = true) := by
  have hInv := reach_inv hre
  have htab : db.tableExists = true := by
    by_contra hf
    have hni : db.table = [] :=
      hInv.noTable (by revert hf; cases db.tableExists <;> simp)
    rw [hni] at hr
    exact absurd hr (List.not_mem_nil r)
  cases o with
  | initOp of fs =>
      have htbl : (applyOp (.initOp of fs) t db).table = db.table := by
        cases of
        · exact (runInit_state fs ddlSteps db (by decide)).1
        · rfl
      exact c6_unchanged hInv hr hid rfl (htbl ▸ hr') _ rfl
  | queryOp of ft st =>
      have htbl : (applyOp (.queryOp of ft st) t db).table = db.table := by
        cases of
        case false =>
          rcases hrs : execStmt ft st t db with _ | ⟨db1, rows⟩
          · simp [applyOp, execute_query, hrs]
          · by_cases hd : st.isDDL = true
            · simp [applyOp, execute_query, hrs, hd, (exec_ddl_state hd hrs).1]
            · simp [applyOp, execute_query, hrs, hd]
        case true => rfl
      exact c6_unchanged hInv hr hid rfl (htbl ▸ hr') _ rfl
  | updateOp of ft cf st =>
      cases of
      case true =>
        exact c6_unchanged hInv hr hid rfl hr' _
          (by cases ft <;> cases cf <;> cases st <;> rfl)
      case false =>
        rcases hrs : execStmt ft st t db with _ | ⟨db1, rows⟩
        · have htbl :
              (applyOp (.updateOp false ft cf st) t db).table = db.table := by
            simp [applyOp, execute_update, hrs]
          cases ft
          case true =>
            exact c6_unchanged hInv hr hid rfl (htbl ▸ hr') _
              (by cases cf <;> cases st <;> rfl)
          case false =>
            cases st
            case updateCategoryById j c => simp [execStmt, htab] at hrs
            case updateSetUpdatedAtById j v => simp [execStmt, htab] at hrs
            all_goals
              exact c6_unchanged hInv hr hid rfl (htbl ▸ hr') _
                (by cases cf <;> rfl)
        · cases ft
          case true => simp [execStmt] at hrs
          case false =>
            cases st
            -- constructor order: createTable, createIdxSid, createIdxTime,
            -- createIdxCat, createTrigger, insertTxn, updateCategoryById,
            -- updateSetUpdatedAtById, deleteById, selectBySourceId
            case createTable =>
              have htbl :
                  (applyOp (.updateOp false false cf .createTable) t db).table
                    = db.table := by
                simp [applyOp, execute_update, hrs, Stmt.isDDL,
                  (exec_ddl_state (by rfl) hrs).1]
              exact c6_unchanged hInv hr hid rfl (htbl ▸ hr') _
                (by cases cf <;> rfl)
            case createIdxSid =>
              have htbl :
                  (applyOp (.updateOp false false cf .createIdxSid) t db).table
                    = db.table := by
                simp [applyOp, execute_update, hrs, Stmt.isDDL,
                  (exec_ddl_state (by rfl) hrs).1]
              exact c6_unchanged hInv hr hid rfl (htbl ▸ hr') _
                (by cases cf <;> rfl)
            case createIdxTime =>
              have htbl :
                  (applyOp (.updateOp false false cf .createIdxTime) t db).table
                    = db.table := by
                simp [applyOp, execute_update, hrs, Stmt.isDDL,
                  (exec_ddl_state (by rfl) hrs).1]
              exact c6_unchanged hInv hr hid rfl (htbl ▸ hr') _
                (by cases cf <;> rfl)
            case createIdxCat =>
              have htbl :
                  (applyOp (.updateOp false false cf .createIdxCat) t db).table
                    = db.table := by
                simp [applyOp, execute_update, hrs, Stmt.isDDL,
                  (exec_ddl_state (by rfl) hrs).1]
              exact c6_unchanged hInv hr hid rfl (htbl ▸ hr') _
                (by cases cf <;> rfl)
            case createTrigger =>
              have htbl :
                  (applyOp (.updateOp false false cf .createTrigger) t db).table
                    = db.table := by
                simp [applyOp, execute_update, hrs, Stmt.isDDL,
                  (exec_ddl_state (by rfl) hrs).1]
              exact c6_unchanged hInv hr hid rfl (htbl ▸ hr') _
                (by cases cf <;> rfl)
            case insertTxn tIn =>
              have hrs2 := hrs
              simp [execStmt, htab] at hrs
              split_ifs at hrs with hconf
              cases hrs
              cases cf
              · have htbl :
                    (applyOp (.updateOp false false false (.insertTxn tIn)) t
                      db).table
                      = db.table ++ [mkRow db.nextId tIn t] := by
                  simp [applyOp, execute_update, hrs2, Stmt.isDDL, Stmt.isDML]
                rw [htbl] at hr'
                rcases List.mem_append.1 hr' with hr'' | hr''
                · exact c6_unchanged hInv hr hid rfl hr'' _ rfl
                · exfalso
                  have hltd := hInv.idsLt r hr
                  simp only [List.mem_singleton] at hr''
                  subst hr''
                  simp [mkRow] at hid
                  omega
              · have htbl :
                    (applyOp (.updateOp false false true (.insertTxn tIn)) t
                      db).table = db.table := by
                  simp [applyOp, execute_update, hrs2, Stmt.isDDL, Stmt.isDML]
                exact c6_unchanged hInv hr hid rfl (htbl ▸ hr') _ rfl
            case updateCategoryById j c =>
              have hrs2 := hrs
              simp [execStmt, htab, htr] at hrs
              obtain ⟨rfl, rfl⟩ := hrs
              cases cf
              · have htbl :
                    (applyOp (.updateOp false false false
                      (.updateCategoryById j c)) t db).table
                      = db.table.map (fun r0 =>
                          if r0.id = j then
                            { r0 with category := c, updated_at := t }
                          else r0) := by
                  simp [applyOp, execute_update, hrs2, Stmt.isDDL, Stmt.isDML]
                rw [htbl] at hr'
                simp only [List.mem_map] at hr'
                obtain ⟨r0, hr0, hg⟩ := hr'
                have hid0 : r0.id = r.id := by
                  rw [← hg] at hid
                  by_cases hj : r0.id = j
                  · simpa [hj] using hid
                  · simpa [hj] using hid
                have h0 := mem_eq_of_id hInv.idsNodup hr hr0 hid0
                subst h0
                by_cases hj : r0.id = j
                · rw [if_pos hj] at hg
                  subst hg
                  refine ⟨rfl, ?_⟩
                  simp only [OpUpdates, beq_iff_eq]
                  constructor
                  · intro _
                    exact hj.symm
                  · intro _
                    exact Ne.symm hu
                · rw [if_neg hj] at hg
                  subst hg
                  refine ⟨rfl, ?_⟩
                  simp only [OpUpdates, beq_iff_eq]
                  constructor
                  · intro hcon
                    exact absurd rfl hcon
                  · intro hcon
                    exact absurd hcon.symm hj
              · have htbl :
                    (applyOp (.updateOp false false true
                      (.updateCategoryById j c)) t db).table = db.table := by
                  simp [applyOp, execute_update, hrs2, Stmt.isDDL, Stmt.isDML]
                exact c6_unchanged hInv hr hid rfl (htbl ▸ hr') _ rfl
            case updateSetUpdatedAtById j v =>
              have hrs2 := hrs
              simp [execStmt, htab, htr] at hrs
              obtain ⟨rfl, rfl⟩ := hrs
              cases cf
              · have htbl :
                    (applyOp (.updateOp false false false
                      (.updateSetUpdatedAtById j v)) t db).table
                      = db.table.map (fun r0 =>
                          if r0.id = j then { r0 with updated_at := t }
                          else r0) := by
                  simp [applyOp, execute_update, hrs2, Stmt.isDDL, Stmt.isDML]
                rw [htbl] at hr'
                simp only [List.mem_map] at hr'
                obtain ⟨r0, hr0, hg⟩ := hr'
                have hid0 : r0.id = r.id := by
                  rw [← hg] at hid
                  by_cases hj : r0.id = j
                  · simpa [hj] using hid
                  · simpa [hj] using hid
                have h0 := mem_eq_of_id hInv.idsNodup hr hr0 hid0
                subst h0
                by_cases hj : r0.id = j
                · rw [if_pos hj] at hg
                  subst hg
                  refine ⟨rfl, ?_⟩
                  simp only [OpUpdates, beq_iff_eq]
                  constructor
                  · intro _
                    exact hj.symm
                  · intro _
                    exact Ne.symm hu
                · rw [if_neg hj] at hg
                  subst hg
                  refine ⟨rfl, ?_⟩
                  simp only [OpUpdates, beq_iff_eq]
                  constructor
                  · intro hcon
                    exact absurd rfl hcon
                  · intro hcon
                    exact absurd hcon.symm hj
              · have htbl :
                    (applyOp (.updateOp false false true
                      (.updateSetUpdatedAtById j v)) t db).table
                      = db.table := by
                  simp [applyOp, execute_update, hrs2, Stmt.isDDL, Stmt.isDML]
                exact c6_unchanged hInv hr hid rfl (htbl ▸ hr') _ rfl
            case deleteById j =>
              have hrs2 := hrs
              simp [execStmt, htab] at hrs
              obtain ⟨rfl, rfl⟩ := hrs
              cases cf
              · have htbl :
                    (applyOp (.updateOp false false false (.deleteById j)) t
                      db).table
                      = db.table.filter (fun r0 => decide (r0.id ≠ j)) := by
                  simp [applyOp, execute_update, hrs2, Stmt.isDDL, Stmt.isDML]
                rw [htbl] at hr'
                exact c6_unchanged hInv hr hid rfl
                  (List.mem_of_mem_filter hr') _ rfl
              · have htbl :
                    (applyOp (.updateOp false false true (.deleteById j)) t
                      db).table = db.table := by
                  simp [applyOp, execute_update, hrs2, Stmt.isDDL, Stmt.isDML]
                exact c6_unchanged hInv hr hid rfl (htbl ▸ hr') _ rfl
            case selectBySourceId s0 =>
              have hrs2 := hrs
              simp [execStmt, htab] at hrs
              obtain ⟨rfl, rfl⟩ := hrs
              have htbl :
                  (applyOp (.updateOp false false cf (.selectBySourceId s0)) t
                    db).table = db.table := by
                simp [applyOp, execute_update, hrs2, Stmt.isDDL, Stmt.isDML]
              exact c6_unchanged hInv hr hid rfl (htbl ▸ hr') _
                (by cases cf <;> rfl)

theorem c6_updated_at_touch_witness :
    (⟨1, "2024-01-02T03:04:05Z", some "coffee", -45, "NZD", "wise", some "w1",
        some "Transport", some "raw1", 1, 2⟩ : Row).created_at
        = (mkRow 1 tIn1 1).created_at ∧
      ((⟨1, "2024-01-02T03:04:05Z", some "coffee", -45, "NZD", "wise",
          some "w1", some "Transport", some "raw1", 1, 2⟩ : Row).updated_at
          ≠ (mkRow 1 tIn1 1).updated_at ↔
        OpUpdates (.updateOp false false false
          (.updateCategoryById 1 (some "Transport"))) (mkRow 1 tIn1 1).id
          = true) :=
  c6_updated_at_touch dbOne 2
    (.updateOp false false false (.updateCategoryById 1 (some "Transport")))
    (mkRow 1 tIn1 1)
    ⟨1, "2024-01-02T03:04:05Z", some "coffee", -45, "NZD", "wise", some "w1",
      some "Transport", some "raw1", 1, 2⟩
    reach_dbOne (by decide) (by decide) (by decide) (by decide) (by decide)

/-- C7: inserting a record with known fields and a fresh non-null
`source_id` through `execute_update` succeeds, and querying by that
`source_id` through `execute_query` returns exactly one record whose stored
fields equal the inserted values verbatim, apart from the auto-assigned
`id`, `created_at` and `updated_at`. -/
theorem c7_roundtrip (db : DB) (tIn : TxnInput) (s : String) (now now' : Nat)
    (htab : db.tableExists = true)
    (hfresh : ∀ r ∈ db.table, r.source_id ≠ some s)
    (hsid : tIn.source_id = some s) :
    (execute_update false false false (.insertTxn tIn) now db).1
        = Except.ok true ∧
      (execute_query false false (.selectBySourceId s) now'
          (execute_update false false false (.insertTxn tIn) now db).2).1
        = Except.ok [mkRow db.nextId tIn now] ∧
      rowFields (mkRow db.nextId tIn now) = tIn := by
  have hconf : sidConflict db.table tIn.source_id = false := by
    rw [hsid]
    simp only [sidConflict]
    exact (sidTaken_eq_false_iff db.table s).2 hfresh
  have hexec : execStmt false (.insertTxn tIn) now db
      = .ok (insertedDB db tIn now) [] := by
    simp [execStmt, htab, hconf, insertedDB]
  refine ⟨?_, ?_, rfl⟩
  · simp [execute_update, hexec, Stmt.isDDL, Stmt.isDML]
  · have hsnd : (execute_update false false false (.insertTxn tIn) now db).2
        = insertedDB db tIn now := by
      simp [execute_update, hexec, Stmt.isDDL, Stmt.isDML]
    rw [hsnd]
    have hfil : (db.table ++ [mkRow db.nextId tIn now]).filter
        (fun r => decide (r.source_id = some s))
        = [mkRow db.nextId tIn now] := by
      rw [List.filter_append]
      have h1 : db.table.filter (fun r => decide (r.source_id = some s))
          = [] := by
        rw [List.filter_eq_nil_iff]
        intro r hr
        simpa using hfresh r hr
      rw [h1]
      simp [mkRow, hsid]
    simp [execute_query, execStmt, htab, insertedDB, hfil, Stmt.isDDL]

theorem c7_roundtrip_witness :
    (execute_update false false false (.insertTxn tIn1) 1 dbInit).1
        = Except.ok true ∧
      (execute_query false false (.selectBySourceId "w1") 2
          (execute_update false false false (.insertTxn tIn1) 1 dbInit).2).1
        = Except.ok [mkRow dbInit.nextId tIn1 1] ∧
      rowFields (mkRow dbInit.nextId tIn1 1) = tIn1 :=
  c7_roundtrip dbInit tIn1 "w1" 1 2 (by decide) (by decide) (by decide)

theorem insertAll_nulls (ts : List TxnInput) : ∀ (db : DB) (now : Nat),
    db.tableExists = true → (∀ tIn ∈ ts, tIn.source_id = none) →
    (insertAll ts now db).1 = List.replicate ts.length (Except.ok true) ∧
      (insertAll ts now db).2.table.length
        = db.table.length + ts.length := by
  induction ts with
  | nil =>
      intro db now _ _
      exact ⟨rfl, rfl⟩
  | cons tIn ts ih =>
      intro db now htab hnull
      have hs : tIn.source_id = none := hnull tIn (List.mem_cons_self tIn ts)
      have hexec : execStmt false (.insertTxn tIn) now db
          = .ok (insertedDB db tIn now) [] := by
        simp [execStmt, htab, sidConflict, hs, insertedDB]
      have hp : execute_update false false false (.insertTxn tIn) now db
          = (Except.ok true, insertedDB db tIn now) := by
        simp [execute_update, hexec, Stmt.isDDL, Stmt.isDML]
      have htab1 : (insertedDB db tIn now).tableExists = true := htab
      obtain ⟨ih1, ih2⟩ := ih (insertedDB db tIn now) (now + 1) htab1
        (fun x hx => hnull x (List.mem_cons_of_mem tIn hx))
      constructor
      · simp [insertAll, hp, ih1, List.replicate_succ]
      · simp only [insertAll, hp, ih2]
        simp [insertedDB]
        omega

/-- C8: rows with null `source_id` are exempt from uniqueness — from any
state with the table present, a fault-free insert sequence of records whose
`source_id` is null succeeds in every call (`execute_update` returns `true`
each time) and all the inserted rows coexist in the table. -/
theorem c8_null_source_id_not_unique (db : DB) (ts : List TxnInput)
    (now : Nat) (htab : db.tableExists = true)
    (hnull : ∀ tIn ∈ ts, tIn.source_id = none) :
    (insertAll ts now db).1 = List.replicate ts.length (Except.ok true) ∧
      (insertAll ts now db).2.table.length
        = db.table.length + ts.length :=
  insertAll_nulls ts db now htab hnull

theorem c8_null_source_id_not_unique_witness :
    (insertAll [tIn3, tIn3] 1 dbInit).1
        = List.replicate 2 (Except.ok true) ∧
      (insertAll [tIn3, tIn3] 1 dbInit).2.table.length
        = dbInit.table.length + 2 :=
  c8_null_source_id_not_unique dbInit [tIn3, tIn3] 1 (by decide) (by decide)

/-- C9 counterexample: the claim fails for DDL statements — passing
`CREATE TABLE` through `execute_query` durably changes the store even
though `execute_query` never commits, because SQLite autocommits DDL run
outside a transaction and Python's `sqlite3` opens no transaction for it. -/
theorem c9_counterexample :
    (execute_query false false .createTable 0 DB.empty).2 ≠ DB.empty := by
  decide

/-- C9 amended: `execute_query` never persists a change for any non-DDL
statement — for SELECT and for every DML statement (even a mutating INSERT,
UPDATE or DELETE), and on every exit path (open failure, execute failure or
success), the durable state after the call equals the state before it: the
pending implicit DML transaction is discarded when the connection closes
without a commit.  Only autocommitted DDL escapes this. -/
theorem c9_query_no_dml_persist (of ft : Bool) (st : Stmt) (now : Nat)
    (db : DB) (h : st.isDDL = false) :
    (execute_query of ft st now db).2 = db := by
  cases of
  case true => rfl
  case false =>
    rcases hrs : execStmt ft st now db with _ | ⟨db1, rows⟩ <;>
      simp [execute_query, hrs, h]

theorem c9_query_no_dml_persist_witness :
    (execute_query false false (.insertTxn tIn2) 5 dbOne).2 = dbOne :=
  c9_query_no_dml_persist false false (.insertTxn tIn2) 5 dbOne rfl

/-- C10: `execute_update` returning `true` only means the statement
executed and committed without a backing-engine error — an UPDATE or a
DELETE whose WHERE clause matches zero rows still returns `true` and leaves
the store unchanged. -/
theorem c10_zero_matched_rows_true (db : DB) (i : Nat) (c : Option String)
    (now : Nat) (htab : db.tableExists = true)
    (hnone : ∀ r ∈ db.table, r.id ≠ i) :
    execute_update false false false (.updateCategoryById i c) now db
        = (Except.ok true, db) ∧
      execute_update false false false (.deleteById i) now db
        = (Except.ok true, db) := by
  constructor
  · have hmap : db.table.map (fun r =>
        if r.id = i then
          { r with category := c,
                   updated_at := if db.trig then now else r.updated_at }
        else r) = db.table :=
      (List.map_congr_left (fun r hr => if_neg (hnone r hr))).trans
        (List.map_id db.table)
    have hexec : execStmt false (.updateCategoryById i c) now db
        = .ok db [] := by
      simp only [execStmt, Bool.false_eq_true, if_false]
      rw [if_pos htab, hmap]
    simp [execute_update, hexec, Stmt.isDDL, Stmt.isDML]
  · have hfil : db.table.filter (fun r => decide (r.id ≠ i)) = db.table := by
      rw [List.filter_eq_self]
      intro r hr
      simpa using hnone r hr
    have hexec : execStmt false (.deleteById i) now db = .ok db [] := by
      simp only [execStmt, Bool.false_eq_true, if_false]
      rw [if_pos htab, hfil]
    simp [execute_update, hexec, Stmt.isDDL, Stmt.isDML]

theorem c10_zero_matched_rows_true_witness :
    execute_update false false false (.updateCategoryById 7 (some "Rent")) 3
        dbOne = (Except.ok true, dbOne) ∧
      execute_update false false false (.deleteById 7) 3 dbOne
        = (Except.ok true, dbOne) :=
  c10_zero_matched_rows_true dbOne 7 (some "Rent") 3 (by decide) (by decide)
